import Mathlib

set_option maxHeartbeats 1000000

/-- Error values raised on the session-start path, translating the Python
exception classes that can escape `start_stream_transcription`:
a construction-time validation failure, the typed service error produced by
the response parser, the generic `RuntimeError` of the unexpected-status
branch, and `binascii.Error` raised by `unhexlify`. -/
inductive PyError where
  | validationError (message : String)
  | serviceError (code : String) (body : String)
  | runtimeError (message : String)
  | binasciiError
  deriving Repr, DecidableEq

/-- Observable external effects performed by `start_stream_transcription`,
in program order: endpoint resolution, credential fetch, the transport send
of the signed handshake, closing the outbound streaming request body, and
draining the response body bytes. -/
inductive Effect where
  | resolveEndpoint (region : String)
  | getCredentials
  | send (uri : String) (method : String) (body : Nat)
  | closeBody (body : Nat)
  | drainBody
  deriving Repr, DecidableEq

/-- Header mapping of a prepared or signed request, with the
`headers.get(name, default)` lookup used by `_extract_signature`. -/
structure Headers where
  pairs : List (String × String)
  deriving Repr, DecidableEq

def Headers.get (h : Headers) (name dflt : String) : String :=
  match h.pairs.find? (fun p => p.1 == name) with
  | some p => p.2
  | none => dflt

/-- A prepared (and, after signing, signed) HTTP request: target URI, method,
header set, and the streaming body handle. The body handle is modelled as an
opaque identifier so that transfer of the very same handle is observable. -/
structure HttpRequest where
  uri : String
  method : String
  headers : Headers
  body : Nat
  deriving Repr, DecidableEq

/-- The request shape built by `TranscribeStreamingClient.start_stream_transcription`
from its keyword parameters. -/
structure StartStreamTranscriptionRequest where
  language_code : String
  media_sample_rate_hz : Nat
  media_encoding : String
  vocabulary_name : Option String := none
  session_id : Option String := none
  vocab_filter_method : Option String := none
  vocab_filter_name : Option String := none
  show_speaker_label : Option Bool := none
  enable_channel_identification : Option Bool := none
  number_of_channels : Option Nat := none
  deriving Repr, DecidableEq

/-- The request shape built by the medical client, with the two extra
required fields `audio_type` and `specialty`. -/
structure StartMedicalStreamTranscriptionRequest where
  language_code : String
  media_sample_rate_hz : Nat
  media_encoding : String
  vocabulary_name : Option String := none
  session_id : Option String := none
  vocab_filter_method : Option String := none
  vocab_filter_name : Option String := none
  show_speaker_label : Option Bool := none
  enable_channel_identification : Option Bool := none
  number_of_channels : Option Nat := none
  audio_type : String
  specialty : String
  deriving Repr, DecidableEq

/-- Modelled from the spec: the request-shape constructor lives in `model.py`,
which is not among the provided sources. Per the spec, a session request is
validated once at construction, and the speaker-label flag is mutually
exclusive with the channel-identification flag, rejected as a validation
error before any network activity. -/
def validateSessionRequest (req : StartStreamTranscriptionRequest) : Except PyError Unit :=
  if req.show_speaker_label = some true ∧ req.enable_channel_identification = some true then
    .error (.validationError "show_speaker_label and enable_channel_identification are mutually exclusive")
  else
    .ok ()

/-- Modelled from the spec: construction-time validation of the medical
request shape (`model.py` is not among the provided sources); the same
mutual-exclusion rule applies to the shared session parameters. -/
def validateMedicalSessionRequest (req : StartMedicalStreamTranscriptionRequest) : Except PyError Unit :=
  if req.show_speaker_label = some true ∧ req.enable_channel_identification = some true then
    .error (.validationError "show_speaker_label and enable_channel_identification are mutually exclusive")
  else
    .ok ()

/-- Lowercase hexadecimal digit for a value in `0..15`. -/
def hexChar : Nat → Char
  | 0 => '0' | 1 => '1' | 2 => '2' | 3 => '3' | 4 => '4'
  | 5 => '5' | 6 => '6' | 7 => '7' | 8 => '8' | 9 => '9'
  | 10 => 'a' | 11 => 'b' | 12 => 'c' | 13 => 'd' | 14 => 'e' | 15 => 'f'
  | _ => '0'

/-- Lowercase hex encoding of a byte sequence, two digits per byte. -/
def hexEncode : List Nat → List Char
  | [] => []
  | b :: rest => hexChar (b / 16) :: hexChar (b % 16) :: hexEncode rest

/-- Value of one hexadecimal digit, accepting both cases as
`binascii.unhexlify` does; `none` for a non-hex character. -/
def hexVal (c : Char) : Option Nat :=
  if '0' ≤ c ∧ c ≤ '9' then some (c.toNat - '0'.toNat)
  else if 'a' ≤ c ∧ c ≤ 'f' then some (c.toNat - 'a'.toNat + 10)
  else if 'A' ≤ c ∧ c ≤ 'F' then some (c.toNat - 'A'.toNat + 10)
  else none

/-- Model of `binascii.unhexlify`: decodes an even-length string of hex
digits into bytes; `none` models the raised `binascii.Error` on an
odd-length input or a non-hexadecimal digit. -/
def unhexlify : List Char → Option (List Nat)
  | [] => some []
  | [_] => none
  | hi :: lo :: rest =>
    match hexVal hi, hexVal lo, unhexlify rest with
    | some h, some l, some bs => some ((16 * h + l) :: bs)
    | _, _, _ => none

/-- Match-at-start test used by the literal-pattern scan of
`re.split("Signature=", auth)`. -/
def isPre : List Char → List Char → Bool
  | [], _ => true
  | _ :: _, [] => false
  | a :: as, b :: bs => a == b && isPre as bs

/-- Occurrence test for a literal pattern as a contiguous substring. -/
def containsSub (pat : List Char) : List Char → Bool
  | [] => pat.isEmpty
  | c :: rest => isPre pat (c :: rest) || containsSub pat rest

/-- Greedy left-to-right splitting scan on a nonempty literal pattern, with a
fuel argument bounding the number of scan steps (the callers supply the input
length, which always suffices). -/
def splitLAux (sep : List Char) : Nat → List Char → List (List Char)
  | _, [] => [[]]
  | 0, s => [s]
  | fuel + 1, c :: rest =>
    if 0 < sep.length ∧ isPre sep (c :: rest) = true then
      [] :: splitLAux sep fuel (rest.drop (sep.length - 1))
    else
      match splitLAux sep fuel rest with
      | [] => [[c]]
      | p :: ps => (c :: p) :: ps

/-- Model of Python `re.split(sep, s)` for a literal pattern with no regex
metacharacters: split at the non-overlapping occurrences found by a greedy
left-to-right scan. -/
def splitL (sep s : List Char) : List (List Char) :=
  splitLAux sep s.length s

def signatureMarker : List Char := "Signature=".data

/-- The characters kept by `re.split("Signature=", auth)[-1]`: the last piece
of the split (the whole value when the marker does not occur). -/
def extractSignatureChars (auth : List Char) : List Char :=
  (splitL signatureMarker auth).getLastD []

/-- Model of the body of `TranscribeStreamingClient._extract_signature`:
split the Authorization value on the literal pattern `Signature=`, keep the
last piece, and hex-decode it with `binascii.unhexlify` (`none` models the
raised `binascii.Error`). -/
def extractSignature (auth : String) : Option (List Nat) :=
  unhexlify (extractSignatureChars auth.data)

/-- Suffix strictly after the first occurrence of a literal pattern,
`none` when the pattern does not occur. -/
def afterFirst (pat : List Char) : List Char → Option (List Char)
  | [] => none
  | c :: rest =>
    if isPre pat (c :: rest) = true then some ((c :: rest).drop pat.length)
    else afterFirst pat rest

/-- Modelled from the spec: `TranscribeStreamingResponseParser.parse_exception`
lives in `deserialize.py`, which is not among the provided sources. Per the
spec, the drained error-body bytes are parsed into a typed service error whose
code is the service-defined error code embedded in the body (the `__type`
field of the JSON error document). -/
def parseException (_status : Nat) (body : String) : PyError :=
  match afterFirst ("\"__type\":\"".data) body.data with
  | some rest => .serviceError (String.mk (rest.takeWhile (fun c => c != '"'))) body
  | none => .serviceError "UnknownException" body

/-- Observable fields of the constructed `AudioStream` (`model.py` is not
among the provided sources): the streaming body handle passed as
`input_stream` and the seed `initial_signature`. The serializer, signer and
credential-resolver arguments are stateless collaborators with no bearing on
the session-start observables. -/
structure AudioStream where
  input_stream : Nat
  initial_signature : List Nat
  deriving Repr, DecidableEq

/-- The duplex event stream returned on success: the audio stream (outbound
half) and the parsed response (inbound half, opaque here). -/
structure StartStreamTranscriptionEventStream where
  audio_stream : AudioStream
  response : Nat
  deriving Repr, DecidableEq

/-- External collaborators and transport outcome for one session-start
attempt: the resolved endpoint, the credential snapshot (opaque), the
serializers from `serialize.py` and the SigV4 signer from `signer.py` (both
outside the provided sources, hence abstract functions), the handshake
status code, the error-body bytes, and the parsed success response
(opaque). -/
structure Env where
  endpoint : String
  creds : Nat
  serializeStd : String → StartStreamTranscriptionRequest → HttpRequest
  serializeMed : String → StartMedicalStreamTranscriptionRequest → HttpRequest
  sign : HttpRequest → Nat → HttpRequest
  status_code : Nat
  bodyBytes : String
  parsedResponse : Nat

/-- Model of `TranscribeStreamingClient._extract_signature` applied to the
signed request: reads the Authorization header, defaulting to the empty
string when absent. -/
def TranscribeStreamingClient._extract_signature (signed_request : HttpRequest) : Option (List Nat) :=
  extractSignature (signed_request.headers.get "Authorization" "")

/-- Model of `TranscribeStreamingClient._create_audio_stream`: the audio
stream receives the signed request's streaming body handle as its
`input_stream` and the extracted seed as its `initial_signature`;
`none` propagates the `binascii.Error` raised during extraction. -/
def TranscribeStreamingClient._create_audio_stream (signed_request : HttpRequest) : Option AudioStream :=
  match TranscribeStreamingClient._extract_signature signed_request with
  | some initial_signature =>
    some { input_stream := signed_request.body, initial_signature := initial_signature }
  | none => none

/-- Model of `TranscribeStreamingClient.start_stream_transcription`: request
construction (with spec-modelled validation), endpoint resolution,
serialization, credential fetch, signing, the transport send, and the status
classification of the handshake response. Returns the Python return/raise
outcome together with the ordered trace of external effects. -/
def TranscribeStreamingClient.start_stream_transcription
    (region : String) (env : Env) (req : StartStreamTranscriptionRequest) :
    Except PyError StartStreamTranscriptionEventStream × List Effect :=
  match validateSessionRequest req with
  | .error e => (.error e, [])
  | .ok _ =>
    let endpoint := env.endpoint
    let request := env.serializeStd endpoint req
    let signed_request := env.sign request env.creds
    let trace : List Effect :=
      [.resolveEndpoint region, .getCredentials,
       .send signed_request.uri signed_request.method signed_request.body]
    let status_code := env.status_code
    if 400 ≤ status_code then
      (.error (parseException status_code env.bodyBytes),
       trace ++ [.closeBody signed_request.body, .drainBody])
    else if status_code ≠ 200 then
      (.error (.runtimeError ("Unexpected status code encountered: " ++ toString status_code)),
       trace)
    else
      match TranscribeStreamingClient._create_audio_stream signed_request with
      | some audio_stream =>
        (.ok { audio_stream := audio_stream, response := env.parsedResponse }, trace)
      | none => (.error .binasciiError, trace)

/-- Model of `TranscribeMedicalStreamingClient.start_stream_transcription`:
the same pipeline textually duplicated in the source, differing only in the
request shape and the serializer installed by the medical client's
constructor. -/
def TranscribeMedicalStreamingClient.start_stream_transcription
    (region : String) (env : Env) (req : StartMedicalStreamTranscriptionRequest) :
    Except PyError StartStreamTranscriptionEventStream × List Effect :=
  match validateMedicalSessionRequest req with
  | .error e => (.error e, [])
  | .ok _ =>
    let endpoint := env.endpoint
    let request := env.serializeMed endpoint req
    let signed_request := env.sign request env.creds
    let trace : List Effect :=
      [.resolveEndpoint region, .getCredentials,
       .send signed_request.uri signed_request.method signed_request.body]
    let status_code := env.status_code
    if 400 ≤ status_code then
      (.error (parseException status_code env.bodyBytes),
       trace ++ [.closeBody signed_request.body, .drainBody])
    else if status_code ≠ 200 then
      (.error (.runtimeError ("Unexpected status code encountered: " ++ toString status_code)),
       trace)
    else
      match TranscribeStreamingClient._create_audio_stream signed_request with
      | some audio_stream =>
        (.ok { audio_stream := audio_stream, response := env.parsedResponse }, trace)
      | none => (.error .binasciiError, trace)

/-- Modelled from the spec: `SigV4RequestSigner` lives in `signer.py`, which
is not among the provided sources. Per the spec, signing uses the full SigV4
request-signing scheme, whose Authorization value ends in the literal
`Signature=` followed by the lowercase hex encoding of the fixed 32-byte
HMAC-SHA256 digest; everything before that final marker is abstracted as an
arbitrary character prefix. -/
def sigV4AuthorizationValue (pfx : List Char) (digest : List Nat) : String :=
  String.mk (pfx ++ signatureMarker ++ hexEncode digest)

theorem isPre_iff (p l : List Char) : isPre p l = true ↔ ∃ r, l = p ++ r := by
  induction p generalizing l with
  | nil =>
    simp [isPre]
  | cons a as ih =>
    cases l with
    | nil => simp [isPre]
    | cons b bs =>
      simp only [isPre, Bool.and_eq_true, beq_iff_eq, ih, List.cons_append]
      constructor
      · rintro ⟨rfl, r, rfl⟩
        exact ⟨r, rfl⟩
      · rintro ⟨r, h⟩
        simp only [List.cons.injEq] at h
        obtain ⟨rfl, rfl⟩ := h
        exact ⟨rfl, r, rfl⟩

theorem isPre_append (p r : List Char) : isPre p (p ++ r) = true :=
  (isPre_iff p (p ++ r)).mpr ⟨r, rfl⟩

theorem containsSub_iff (pat s : List Char) :
    containsSub pat s = true ↔ ∃ a b, s = a ++ pat ++ b := by
  induction s with
  | nil =>
    simp only [containsSub, List.isEmpty_iff]
    constructor
    · rintro rfl
      exact ⟨[], [], rfl⟩
    · rintro ⟨a, b, h⟩
      rcases List.append_eq_nil.mp h.symm with ⟨h1, h2⟩
      rcases List.append_eq_nil.mp h1 with ⟨-, h3⟩
      exact h3
  | cons c rest ih =>
    simp only [containsSub, Bool.or_eq_true, ih]
    constructor
    · rintro (h | ⟨a, b, rfl⟩)
      · obtain ⟨r, hr⟩ := (isPre_iff pat (c :: rest)).mp h
        exact ⟨[], r, by simp [hr]⟩
      · exact ⟨c :: a, b, by simp⟩
    · rintro ⟨a, b, h⟩
      cases a with
      | nil =>
        exact Or.inl ((isPre_iff pat (c :: rest)).mpr ⟨b, by simpa using h⟩)
      | cons a' as' =>
        simp only [List.cons_append, List.cons.injEq] at h
        exact Or.inr ⟨as', b, h.2⟩

theorem containsSub_eq_false_of_head_notMem (ch : Char) (pT s : List Char) (h : ch ∉ s) :
    containsSub (ch :: pT) s = false := by
  by_contra hc
  rw [Bool.not_eq_false, containsSub_iff] at hc
  obtain ⟨a, b, rfl⟩ := hc
  exact h (by simp)

theorem splitLAux_ne_nil (sep : List Char) : ∀ f s, splitLAux sep f s ≠ [] := by
  intro f
  induction f with
  | zero =>
    intro s
    cases s <;> simp [splitLAux]
  | succ n ih =>
    intro s
    cases s with
    | nil => simp [splitLAux]
    | cons c rest =>
      simp only [splitLAux]
      split
      · simp
      · split <;> simp

theorem splitLAux_of_not_contains (sep : List Char) :
    ∀ f s, containsSub sep s = false → splitLAux sep f s = [s] := by
  intro f
  induction f with
  | zero =>
    intro s _
    cases s <;> simp [splitLAux]
  | succ n ih =>
    intro s hs
    cases s with
    | nil => simp [splitLAux]
    | cons c rest =>
      simp only [containsSub, Bool.or_eq_false_iff] at hs
      have hni : ¬ (0 < sep.length ∧ isPre sep (c :: rest) = true) := by
        rintro ⟨-, h2⟩
        rw [hs.1] at h2
        exact Bool.false_ne_true h2
      simp only [splitLAux]
      rw [if_neg hni, ih rest hs.2]

theorem two_le_splitLAux_length (sep : List Char) (hsep : 0 < sep.length) :
    ∀ f s, containsSub sep s = true → s.length ≤ f → 2 ≤ (splitLAux sep f s).length := by
  intro f
  induction f with
  | zero =>
    intro s hc hl
    have hs : s = [] := List.length_eq_zero.mp (Nat.le_zero.mp hl)
    subst hs
    simp only [containsSub, List.isEmpty_iff] at hc
    subst hc
    exact absurd hsep (by simp)
  | succ n ih =>
    intro s hc hl
    cases s with
    | nil =>
      simp only [containsSub, List.isEmpty_iff] at hc
      subst hc
      exact absurd hsep (by simp)
    | cons c rest =>
      simp only [splitLAux]
      split
      · have h1 : 0 < (splitLAux sep n (rest.drop (sep.length - 1))).length :=
          List.length_pos.mpr (splitLAux_ne_nil sep n _)
        simp only [List.length_cons]
        omega
      · rename_i hni
        have hpre : isPre sep (c :: rest) = false := by
          by_contra hb
          exact hni ⟨hsep, Bool.not_eq_false _ ▸ hb⟩
        have hrest : containsSub sep rest = true := by
          simp only [containsSub, Bool.or_eq_true] at hc
          rcases hc with hc | hc
          · rw [hpre] at hc
            exact absurd hc (by simp)
          · exact hc
        have hlen : rest.length ≤ n := by
          simp only [List.length_cons] at hl
          omega
        have := ih rest hrest hlen
        split
        · rename_i heq
          rw [heq] at this
          simp at this
        · rename_i p ps heq
          rw [heq] at this
          simp only [List.length_cons] at this ⊢
          omega

theorem getLastD_of_ne_nil {α : Type} (l : List α) (d d' : α) (h : l ≠ []) :
    l.getLastD d = l.getLastD d' := by
  cases l with
  | nil => exact absurd rfl h
  | cons a l' => rw [List.getLastD_cons, List.getLastD_cons]

theorem splitLAux_getLastD (sep : List Char) (hsep : 0 < sep.length) (t : List Char)
    (hnt : containsSub sep t = false) :
    ∀ f s, (s ++ sep ++ t).length ≤ f →
      (∀ a b, s ++ sep ++ t = a ++ sep ++ b →
        a.length = s.length ∨ a.length + sep.length ≤ s.length) →
      (splitLAux sep f (s ++ sep ++ t)).getLastD [] = t := by
  intro f
  induction f with
  | zero =>
    intro s hl _
    exfalso
    simp only [List.length_append] at hl
    omega
  | succ n ih =>
    intro s hl hyp
    cases s with
    | nil =>
      cases sep with
      | nil => exact absurd hsep (by simp)
      | cons ch sepT =>
        have hform : ([] : List Char) ++ (ch :: sepT) ++ t = ch :: (sepT ++ t) := by simp
        rw [hform]
        simp only [splitLAux]
        rw [if_pos ⟨hsep, by simpa using isPre_append (ch :: sepT) t⟩]
        have hdrop : (sepT ++ t).drop ((ch :: sepT).length - 1) = t := by
          simp only [List.length_cons, Nat.add_sub_cancel]
          exact List.drop_left sepT t
        rw [hdrop, splitLAux_of_not_contains (ch :: sepT) n t hnt]
        rw [List.getLastD_cons, List.getLastD_cons]
        rfl
    | cons c s' =>
      have hform : (c :: s') ++ sep ++ t = c :: (s' ++ sep ++ t) := by simp
      rw [hform]
      simp only [splitLAux]
      split
      · rename_i hcond
        obtain ⟨-, hpre⟩ := hcond
        obtain ⟨r, hr⟩ := (isPre_iff sep (c :: (s' ++ sep ++ t))).mp hpre
        have hm : sep.length ≤ (c :: s').length := by
          rcases hyp [] r (by simpa [hform] using hr) with h0 | h0
          · simp at h0
          · simpa using h0
        have hm' : sep.length - 1 ≤ s'.length := by
          simp only [List.length_cons] at hm
          omega
        have hdrop : (s' ++ sep ++ t).drop (sep.length - 1)
            = (s'.drop (sep.length - 1)) ++ sep ++ t := by
          rw [List.append_assoc, List.drop_append_of_le_length hm', List.append_assoc]
        rw [hdrop]
        have hfuel : ((s'.drop (sep.length - 1)) ++ sep ++ t).length ≤ n := by
          simp only [List.length_append, List.length_drop] at *
          simp only [List.length_cons] at hl
          omega
        have hyp' : ∀ a b, (s'.drop (sep.length - 1)) ++ sep ++ t = a ++ sep ++ b →
            a.length = (s'.drop (sep.length - 1)).length ∨
            a.length + sep.length ≤ (s'.drop (sep.length - 1)).length := by
          intro a b hab
          have hsplit : (c :: s') ++ sep ++ t
              = ((c :: s').take sep.length ++ a) ++ sep ++ b := by
            have h1 : (c :: s') ++ sep ++ t
                = (c :: s').take sep.length ++ ((c :: s').drop sep.length ++ sep ++ t) := by
              rw [← List.append_assoc, ← List.append_assoc, List.take_append_drop]
            have h2 : (c :: s').drop sep.length = s'.drop (sep.length - 1) := by
              obtain ⟨k, hk⟩ : ∃ k, sep.length = k + 1 := ⟨sep.length - 1, by omega⟩
              rw [hk]
              simp [List.drop_succ_cons]
            rw [h1, h2, hab]
            simp [List.append_assoc]
          have htake : ((c :: s').take sep.length).length = sep.length :=
            List.length_take_of_le hm
          rcases hyp _ _ hsplit with h0 | h0 <;>
            [left; right] <;>
            · simp only [List.length_append, htake, List.length_cons, List.length_drop] at h0 ⊢
              omega
        have := ih (s'.drop (sep.length - 1)) hfuel hyp'
        rw [List.getLastD_cons]
        exact this
      · rename_i hni
        have hfuel : (s' ++ sep ++ t).length ≤ n := by
          simp only [List.length_cons, List.length_append] at hl ⊢
          omega
        have hyp' : ∀ a b, s' ++ sep ++ t = a ++ sep ++ b →
            a.length = s'.length ∨ a.length + sep.length ≤ s'.length := by
          intro a b hab
          have : (c :: s') ++ sep ++ t = (c :: a) ++ sep ++ b := by
            simp only [List.cons_append, List.append_assoc] at *
            rw [hab]
          rcases hyp _ _ this with h0 | h0 <;>
            [left; right] <;>
            · simp only [List.length_cons] at h0 ⊢
              omega
        have hlast := ih s' hfuel hyp'
        have hocc : containsSub sep (s' ++ sep ++ t) = true :=
          (containsSub_iff sep _).mpr ⟨s', t, rfl⟩
        have htwo := two_le_splitLAux_length sep hsep n _ hocc hfuel
        split
        · rename_i heq
          exact absurd heq (splitLAux_ne_nil sep n _)
        · rename_i p ps heq
          rw [heq] at hlast htwo
          cases ps with
          | nil => simp at htwo
          | cons q qs =>
            rw [List.getLastD_cons, List.getLastD_cons] at hlast ⊢
            exact hlast


theorem mem_of_getElem?_eq_some {α : Type} {l : List α} {i : Nat} {a : α}
    (h : l[i]? = some a) : a ∈ l := by
  obtain ⟨hh, rfl⟩ := List.getElem?_eq_some_iff.mp h
  exact List.getElem_mem hh


theorem straddle_free (ch : Char) (sepT t : List Char)
    (hch : ch ∉ sepT) (hnt : containsSub (ch :: sepT) t = false) :
    ∀ s a b, s ++ (ch :: sepT) ++ t = a ++ (ch :: sepT) ++ b →
      a.length = s.length ∨ a.length + (ch :: sepT).length ≤ s.length := by
  intro s a b heq0
  have heq : s ++ ((ch :: sepT) ++ t) = a ++ ((ch :: sepT) ++ b) := by
    rw [← List.append_assoc, ← List.append_assoc]
    exact heq0
  rcases Nat.lt_trichotomy a.length s.length with hlt | heqlen | hgt
  · right
    by_contra hcon
    push_neg at hcon
    have h1 : (s ++ ((ch :: sepT) ++ t))[s.length]? = some ch := by
      rw [List.getElem?_append_right (Nat.le_refl _), Nat.sub_self]
      simp
    have hj2 : s.length - a.length < (ch :: sepT).length := by
      simp only [List.length_cons] at hcon ⊢
      omega
    have h2 : (a ++ ((ch :: sepT) ++ b))[s.length]? = (ch :: sepT)[s.length - a.length]? := by
      rw [List.getElem?_append_right (Nat.le_of_lt hlt)]
      exact List.getElem?_append_left hj2
    rw [heq] at h1
    rw [h2] at h1
    obtain ⟨k, hk⟩ : ∃ k, s.length - a.length = k + 1 := ⟨s.length - a.length - 1, by omega⟩
    rw [hk, List.getElem?_cons_succ] at h1
    exact hch (mem_of_getElem?_eq_some h1)
  · left
    exact heqlen
  · rcases Nat.lt_or_ge a.length (s.length + (ch :: sepT).length) with hlt2 | hge2
    · exfalso
      have h1 : (a ++ ((ch :: sepT) ++ b))[a.length]? = some ch := by
        rw [List.getElem?_append_right (Nat.le_refl _), Nat.sub_self]
        simp
      have hj2 : a.length - s.length < (ch :: sepT).length := by
        simp only [List.length_cons] at hlt2 ⊢
        omega
      have h2 : (s ++ ((ch :: sepT) ++ t))[a.length]? = (ch :: sepT)[a.length - s.length]? := by
        rw [List.getElem?_append_right (Nat.le_of_lt hgt)]
        exact List.getElem?_append_left hj2
      rw [heq] at h2
      rw [h1] at h2
      obtain ⟨k, hk⟩ : ∃ k, a.length - s.length = k + 1 := ⟨a.length - s.length - 1, by omega⟩
      rw [hk, List.getElem?_cons_succ] at h2
      exact hch (mem_of_getElem?_eq_some h2.symm)
    · exfalso
      have hlenss : (s ++ (ch :: sepT)).length = s.length + (ch :: sepT).length := by
        simp [List.length_append]
      have hdropL : (s ++ ((ch :: sepT) ++ t)).drop (s.length + (ch :: sepT).length) = t := by
        rw [← List.append_assoc, ← hlenss]
        exact List.drop_left _ _
      have hdropR : (a ++ ((ch :: sepT) ++ b)).drop (s.length + (ch :: sepT).length)
          = a.drop (s.length + (ch :: sepT).length) ++ ((ch :: sepT) ++ b) :=
        List.drop_append_of_le_length hge2
      have ht : t = a.drop (s.length + (ch :: sepT).length) ++ ((ch :: sepT) ++ b) := by
        rw [← hdropL, heq, hdropR]
      have hocc : containsSub (ch :: sepT) t = true := by
        rw [containsSub_iff]
        exact ⟨a.drop (s.length + (ch :: sepT).length), b, by rw [ht, List.append_assoc]⟩
      rw [hocc] at hnt
      exact absurd hnt (by simp)

theorem extractSignatureChars_append (pfx tl : List Char)
    (hno : containsSub signatureMarker tl = false) :
    extractSignatureChars (pfx ++ signatureMarker ++ tl) = tl := by
  have hmark : signatureMarker = 'S' :: "ignature=".data := by decide
  have hsep : 0 < signatureMarker.length := by decide
  have hch : 'S' ∉ "ignature=".data := by decide
  unfold extractSignatureChars splitL
  refine splitLAux_getLastD signatureMarker hsep tl hno _ pfx (Nat.le_refl _) ?_
  intro a b hab
  rw [hmark] at hab ⊢
  exact straddle_free 'S' "ignature=".data tl hch (hmark ▸ hno) pfx a b hab

theorem hexVal_hexChar (n : Nat) (h : n < 16) : hexVal (hexChar n) = some n := by
  interval_cases n <;> decide

theorem unhexlify_hexEncode (d : List Nat) (h : ∀ b ∈ d, b < 256) :
    unhexlify (hexEncode d) = some d := by
  induction d with
  | nil => rfl
  | cons b rest ih =>
    have hb : b < 256 := h b (by simp)
    have h1 : b / 16 < 16 := by omega
    have h2 : b % 16 < 16 := by omega
    have ih' := ih (fun x hx => h x (by simp [hx]))
    simp only [hexEncode, unhexlify, hexVal_hexChar _ h1, hexVal_hexChar _ h2, ih']
    have hbv : 16 * (b / 16) + b % 16 = b := by omega
    rw [hbv]

theorem hexChar_ne_S (n : Nat) : hexChar n ≠ 'S' := by
  unfold hexChar
  split <;> decide

theorem s_notMem_hexEncode (d : List Nat) : 'S' ∉ hexEncode d := by
  induction d with
  | nil => simp [hexEncode]
  | cons b rest ih =>
    intro hmem
    simp only [hexEncode, List.mem_cons] at hmem
    rcases hmem with h | h | h
    · exact hexChar_ne_S _ h.symm
    · exact hexChar_ne_S _ h.symm
    · exact ih h

/-- The tail after the final `Signature=` marker of a SigV4 Authorization
value is exactly the hex digest appended by the modelled signer: the marker
cannot occur inside lowercase hex characters. -/
theorem extractSignatureChars_sigV4 (pfx : List Char) (digest : List Nat) :
    extractSignatureChars (pfx ++ signatureMarker ++ hexEncode digest) = hexEncode digest := by
  apply extractSignatureChars_append
  have hmark : signatureMarker = 'S' :: "ignature=".data := by decide
  rw [hmark]
  exact containsSub_eq_false_of_head_notMem 'S' _ _ (s_notMem_hexEncode digest)


def isCloseBody : Effect → Bool
  | .closeBody _ => true
  | _ => false

def isDrainBody : Effect → Bool
  | .drainBody => true
  | _ => false

def isSend : Effect → Bool
  | .send _ _ _ => true
  | _ => false

/-- A close of the outbound body and a drain of the response body both occur,
and every close strictly precedes every drain: the trace decomposes around a
close followed by a drain, with no drain before the close, no close or drain
between them, and no close after the drain. -/
def closeBeforeDrain (tr : List Effect) : Prop :=
  ∃ pre mid post b,
    tr = pre ++ .closeBody b :: mid ++ .drainBody :: post
    ∧ (∀ e ∈ pre, isDrainBody e = false)
    ∧ (∀ e ∈ mid, isDrainBody e = false ∧ isCloseBody e = false)
    ∧ (∀ e ∈ post, isCloseBody e = false)

/-- The signed handshake request produced by serializing and signing during a
standard-client run (the value bound to `signed_request` in the source). -/
def signedRequestOf (env : Env) (req : StartStreamTranscriptionRequest) : HttpRequest :=
  env.sign (env.serializeStd env.endpoint req) env.creds

def sampleRequest : StartStreamTranscriptionRequest :=
  { language_code := "en-US", media_sample_rate_hz := 16000, media_encoding := "pcm" }

def sampleMedicalRequest : StartMedicalStreamTranscriptionRequest :=
  { language_code := "en-US", media_sample_rate_hz := 16000, media_encoding := "pcm",
    audio_type := "CONVERSATION", specialty := "PRIMARYCARE" }

def samplePfx : List Char :=
  "AWS4-HMAC-SHA256 Credential=AKID/20200101/us-east-1/transcribe/aws4_request, SignedHeaders=host, ".data

def sampleSignedRequest : HttpRequest :=
  { uri := "https://transcribestreaming.us-east-1.amazonaws.com:8443/stream-transcription"
  , method := "POST"
  , headers := { pairs := [("Authorization",
      "AWS4-HMAC-SHA256 Credential=AKID/20200101/us-east-1/transcribe/aws4_request, SignedHeaders=host, Signature=deadbeef")] }
  , body := 7 }

def baseEnv : Env :=
  { endpoint := "https://transcribestreaming.us-east-1.amazonaws.com"
  , creds := 3
  , serializeStd := fun _ _ => { sampleSignedRequest with headers := { pairs := [] } }
  , serializeMed := fun _ _ => { sampleSignedRequest with headers := { pairs := [] } }
  , sign := fun r _ => { r with headers := sampleSignedRequest.headers }
  , status_code := 200
  , bodyBytes := ""
  , parsedResponse := 11 }

def badRequestBody : String :=
  String.mk ('{' :: "\"__type\":\"BadRequestException\",\"Message\":\"bad language code\"".data ++ ['}'])

example : signedRequestOf baseEnv sampleRequest = sampleSignedRequest := by decide
example : parseException 400 badRequestBody
    = .serviceError "BadRequestException" badRequestBody := by decide

/-- C1: for every handshake response with status code >= 400,
`start_stream_transcription` closes the outbound streaming request body
strictly before draining the response body bytes (the trace ends with the
close of the signed request's body followed by the drain, and every close
precedes every drain), and raises the typed service error parsed from the
drained bytes. -/
theorem start_stream_transcription_closes_before_drain_on_error_status
    (region : String) (env : Env) (req : StartStreamTranscriptionRequest)
    (hval : validateSessionRequest req = .ok ())
    (hstatus : 400 ≤ env.status_code) :
    (TranscribeStreamingClient.start_stream_transcription region env req).1
        = .error (parseException env.status_code env.bodyBytes)
      ∧ (TranscribeStreamingClient.start_stream_transcription region env req).2
        = [.resolveEndpoint region, .getCredentials,
           .send (signedRequestOf env req).uri (signedRequestOf env req).method
             (signedRequestOf env req).body,
           .closeBody (signedRequestOf env req).body, .drainBody]
      ∧ closeBeforeDrain (TranscribeStreamingClient.start_stream_transcription region env req).2 := by
  have hrun : TranscribeStreamingClient.start_stream_transcription region env req
      = (.error (parseException env.status_code env.bodyBytes),
         [.resolveEndpoint region, .getCredentials,
          .send (signedRequestOf env req).uri (signedRequestOf env req).method
            (signedRequestOf env req).body,
          .closeBody (signedRequestOf env req).body, .drainBody]) := by
    simp only [TranscribeStreamingClient.start_stream_transcription, hval, signedRequestOf]
    rw [if_pos hstatus]
    rfl
  refine ⟨by rw [hrun], by rw [hrun], ?_⟩
  rw [hrun]
  refine ⟨[.resolveEndpoint region, .getCredentials,
           .send (signedRequestOf env req).uri (signedRequestOf env req).method
             (signedRequestOf env req).body],
          [], [], (signedRequestOf env req).body, rfl, ?_, ?_, ?_⟩
  · intro e he
    simp only [List.mem_cons, List.not_mem_nil, or_false] at he
    rcases he with rfl | rfl | rfl <;> rfl
  · intro e he
    exact absurd he (List.not_mem_nil e)
  · intro e he
    exact absurd he (List.not_mem_nil e)

def envC1 : Env := { baseEnv with status_code := 400, bodyBytes := badRequestBody }

/-- Witness for C1: a status-400 response whose body is the
BadRequestException JSON document yields precisely that service error, with
the close of the outbound body strictly before the drain. -/
theorem start_stream_transcription_closes_before_drain_on_error_status_witness :
    (TranscribeStreamingClient.start_stream_transcription "us-east-1" envC1 sampleRequest).1
        = .error (.serviceError "BadRequestException" badRequestBody)
      ∧ closeBeforeDrain
          (TranscribeStreamingClient.start_stream_transcription "us-east-1" envC1 sampleRequest).2 := by
  have h := start_stream_transcription_closes_before_drain_on_error_status
      "us-east-1" envC1 sampleRequest rfl (by decide)
  refine ⟨?_, h.2.2⟩
  rw [h.1]
  rfl

/-- C2: on a status-200 handshake, the duplex stream returned by
`start_stream_transcription` carries as its `initial_signature` the
hex-decoding of the substring of the Authorization header that follows the
last occurrence of `Signature=` (the decomposition hypotheses pin that
substring as `tl`), and its `input_stream` is the signed request's body
handle. -/
theorem start_stream_transcription_seed_signature_from_authorization
    (region : String) (env : Env) (req : StartStreamTranscriptionRequest)
    (pfx tl : List Char) (seed : List Nat)
    (hval : validateSessionRequest req = .ok ())
    (hstatus : env.status_code = 200)
    (hauth : ((signedRequestOf env req).headers.get "Authorization" "").data
        = pfx ++ signatureMarker ++ tl)
    (hno : containsSub signatureMarker tl = false)
    (hdec : unhexlify tl = some seed) :
    (TranscribeStreamingClient.start_stream_transcription region env req).1
      = .ok { audio_stream := { input_stream := (signedRequestOf env req).body,
                                initial_signature := seed },
              response := env.parsedResponse } := by
  have hca : TranscribeStreamingClient._create_audio_stream (signedRequestOf env req)
      = some { input_stream := (signedRequestOf env req).body, initial_signature := seed } := by
    have hext : TranscribeStreamingClient._extract_signature (signedRequestOf env req)
        = some seed := by
      unfold TranscribeStreamingClient._extract_signature extractSignature
      rw [hauth, extractSignatureChars_append pfx tl hno, hdec]
    unfold TranscribeStreamingClient._create_audio_stream
    rw [hext]
  simp only [TranscribeStreamingClient.start_stream_transcription, hval, hstatus]
  rw [if_neg (by omega)]
  rw [if_neg (by simp)]
  simp only [signedRequestOf] at hca
  rw [hca]
  rfl

/-- Witness for C2: with the sample environment, whose signed Authorization
header ends in `Signature=deadbeef`, session start returns the stream seeded
with the hex bytes of `deadbeef` and holding the signed request's body
handle. -/
theorem start_stream_transcription_seed_signature_from_authorization_witness :
    (TranscribeStreamingClient.start_stream_transcription "us-east-1" baseEnv sampleRequest).1
      = .ok { audio_stream := { input_stream := (signedRequestOf baseEnv sampleRequest).body,
                                initial_signature := [222, 173, 190, 239] },
              response := baseEnv.parsedResponse } :=
  start_stream_transcription_seed_signature_from_authorization
    "us-east-1" baseEnv sampleRequest samplePfx "deadbeef".data [222, 173, 190, 239]
    rfl rfl (by decide) (by decide) (by decide)

/-- C3: when both the speaker-label flag and the channel-identification flag
are set to true, session start fails with a validation error and the effect
trace is empty: no endpoint resolution, credential fetch or transport send
happens. -/
theorem start_stream_transcription_rejects_speaker_and_channel_before_network
    (region : String) (env : Env) (req : StartStreamTranscriptionRequest)
    (hs : req.show_speaker_label = some true)
    (hc : req.enable_channel_identification = some true) :
    (∃ msg, (TranscribeStreamingClient.start_stream_transcription region env req).1
        = .error (.validationError msg))
      ∧ (TranscribeStreamingClient.start_stream_transcription region env req).2 = [] := by
  have hval : validateSessionRequest req
      = .error (.validationError
          "show_speaker_label and enable_channel_identification are mutually exclusive") := by
    unfold validateSessionRequest
    rw [if_pos ⟨hs, hc⟩]
  constructor
  · refine ⟨"show_speaker_label and enable_channel_identification are mutually exclusive", ?_⟩
    simp only [TranscribeStreamingClient.start_stream_transcription, hval]
  · simp only [TranscribeStreamingClient.start_stream_transcription, hval]

def bothFlagsRequest : StartStreamTranscriptionRequest :=
  { sampleRequest with show_speaker_label := some true,
                       enable_channel_identification := some true }

/-- Witness for C3: the concrete request with both flags set fails with a
validation error and performs no external effects. -/
theorem start_stream_transcription_rejects_speaker_and_channel_before_network_witness :
    (∃ msg, (TranscribeStreamingClient.start_stream_transcription "us-east-1" baseEnv bothFlagsRequest).1
        = .error (.validationError msg))
      ∧ (TranscribeStreamingClient.start_stream_transcription "us-east-1" baseEnv bothFlagsRequest).2
        = [] :=
  start_stream_transcription_rejects_speaker_and_channel_before_network
    "us-east-1" baseEnv bothFlagsRequest rfl rfl

def envC4 : Env := { baseEnv with status_code := 201 }

/-- C4 counterexample: at the concrete status 201 the code fails not with an
error carrying the message "unexpected status" but with the generic
`RuntimeError` whose message is "Unexpected status code encountered: 201";
the carried message differs from the one the claim states. -/
theorem unexpected_status_error_message_counterexample :
    (TranscribeStreamingClient.start_stream_transcription "us-east-1" envC4 sampleRequest).1
        = .error (.runtimeError "Unexpected status code encountered: 201")
      ∧ "Unexpected status code encountered: 201" ≠ "unexpected status" := by
  constructor
  · rfl
  · decide

/-- C4 (amended): for every handshake response whose status code is neither
200 nor >= 400, `start_stream_transcription` fails with the generic
`RuntimeError` carrying the message
"Unexpected status code encountered: <status>" (a fatal error that, per the
spec's taxonomy, plays the role of the protocol error), and is not retried
internally: the trace contains exactly one transport send. -/
theorem start_stream_transcription_unexpected_status_runtime_error
    (region : String) (env : Env) (req : StartStreamTranscriptionRequest)
    (hval : validateSessionRequest req = .ok ())
    (hlow : env.status_code < 400)
    (hne : env.status_code ≠ 200) :
    (TranscribeStreamingClient.start_stream_transcription region env req).1
        = .error (.runtimeError
            ("Unexpected status code encountered: " ++ toString env.status_code))
      ∧ ((TranscribeStreamingClient.start_stream_transcription region env req).2.countP
          (fun e => isSend e)) = 1 := by
  have hrun : TranscribeStreamingClient.start_stream_transcription region env req
      = (.error (.runtimeError
            ("Unexpected status code encountered: " ++ toString env.status_code)),
         [.resolveEndpoint region, .getCredentials,
          .send (signedRequestOf env req).uri (signedRequestOf env req).method
            (signedRequestOf env req).body]) := by
    simp only [TranscribeStreamingClient.start_stream_transcription, hval, signedRequestOf]
    rw [if_neg (by omega), if_pos hne]
  rw [hrun]
  refine ⟨rfl, ?_⟩
  simp [List.countP_cons, List.countP_nil, isSend]

/-- Witness for the amended C4 at the concrete status 201. -/
theorem start_stream_transcription_unexpected_status_runtime_error_witness :
    (TranscribeStreamingClient.start_stream_transcription "us-east-1" envC4 sampleRequest).1
        = .error (.runtimeError
            ("Unexpected status code encountered: " ++ toString envC4.status_code))
      ∧ ((TranscribeStreamingClient.start_stream_transcription "us-east-1" envC4 sampleRequest).2.countP
          (fun e => isSend e)) = 1 :=
  start_stream_transcription_unexpected_status_runtime_error
    "us-east-1" envC4 sampleRequest rfl (by decide) (by decide)

/-- C5: whenever the handshake status is not 200, session start fails: the
result is an error and no event stream value is returned to the caller. -/
theorem start_stream_transcription_failure_returns_no_stream
    (region : String) (env : Env) (req : StartStreamTranscriptionRequest)
    (hne : env.status_code ≠ 200) :
    ∃ e, (TranscribeStreamingClient.start_stream_transcription region env req).1 = .error e := by
  cases hval : validateSessionRequest req with
  | error e =>
    exact ⟨e, by simp only [TranscribeStreamingClient.start_stream_transcription, hval]⟩
  | ok u =>
    cases u
    by_cases h4 : 400 ≤ env.status_code
    · refine ⟨parseException env.status_code env.bodyBytes, ?_⟩
      simp only [TranscribeStreamingClient.start_stream_transcription, hval]
      rw [if_pos h4]
    · refine ⟨.runtimeError ("Unexpected status code encountered: " ++ toString env.status_code), ?_⟩
      simp only [TranscribeStreamingClient.start_stream_transcription, hval]
      rw [if_neg h4, if_pos hne]

def envC5 : Env := { baseEnv with status_code := 503 }

/-- Witness for C5 at the concrete failing status 503. -/
theorem start_stream_transcription_failure_returns_no_stream_witness :
    ∃ e, (TranscribeStreamingClient.start_stream_transcription "us-east-1" envC5 sampleRequest).1
      = .error e :=
  start_stream_transcription_failure_returns_no_stream
    "us-east-1" envC5 sampleRequest (by decide)

/-- C6: on a status-200 handshake the outbound streaming body is never
closed (no close effect occurs in the trace), and whenever a stream is
returned, its audio stream holds the very same body handle of the signed
request as its `input_stream`. -/
theorem start_stream_transcription_success_keeps_body_open
    (region : String) (env : Env) (req : StartStreamTranscriptionRequest)
    (hstatus : env.status_code = 200) :
    (∀ e ∈ (TranscribeStreamingClient.start_stream_transcription region env req).2,
        isCloseBody e = false)
      ∧ ∀ s, (TranscribeStreamingClient.start_stream_transcription region env req).1 = .ok s →
          s.audio_stream.input_stream = (signedRequestOf env req).body := by
  cases hval : validateSessionRequest req with
  | error e =>
    have hrun : TranscribeStreamingClient.start_stream_transcription region env req
        = (.error e, []) := by
      simp only [TranscribeStreamingClient.start_stream_transcription, hval]
    rw [hrun]
    exact ⟨fun e he => absurd he (List.not_mem_nil e), fun s hs => by simp at hs⟩
  | ok u =>
    cases u
    cases hca : TranscribeStreamingClient._create_audio_stream (signedRequestOf env req) with
    | some a =>
      have hrun : TranscribeStreamingClient.start_stream_transcription region env req
          = (.ok { audio_stream := a, response := env.parsedResponse },
             [.resolveEndpoint region, .getCredentials,
              .send (signedRequestOf env req).uri (signedRequestOf env req).method
                (signedRequestOf env req).body]) := by
        simp only [TranscribeStreamingClient.start_stream_transcription, hval, hstatus]
        rw [if_neg (by omega), if_neg (by simp)]
        simp only [signedRequestOf] at hca
        rw [hca]
        rfl
      rw [hrun]
      constructor
      · intro e he
        simp only [List.mem_cons, List.not_mem_nil, or_false] at he
        rcases he with rfl | rfl | rfl <;> rfl
      · intro s hs
        have hsa : s = { audio_stream := a, response := env.parsedResponse } := by
          simpa using hs.symm
        subst hsa
        unfold TranscribeStreamingClient._create_audio_stream at hca
        cases hext : TranscribeStreamingClient._extract_signature (signedRequestOf env req) with
        | some sig =>
          rw [hext] at hca
          simp only [Option.some.injEq] at hca
          rw [← hca]
        | none =>
          rw [hext] at hca
          simp at hca
    | none =>
      have hrun : TranscribeStreamingClient.start_stream_transcription region env req
          = (.error .binasciiError,
             [.resolveEndpoint region, .getCredentials,
              .send (signedRequestOf env req).uri (signedRequestOf env req).method
                (signedRequestOf env req).body]) := by
        simp only [TranscribeStreamingClient.start_stream_transcription, hval, hstatus]
        rw [if_neg (by omega), if_neg (by simp)]
        simp only [signedRequestOf] at hca
        rw [hca]
        rfl
      rw [hrun]
      constructor
      · intro e he
        simp only [List.mem_cons, List.not_mem_nil, or_false] at he
        rcases he with rfl | rfl | rfl <;> rfl
      · intro s hs
        simp at hs

/-- Witness for C6 with the sample status-200 environment. -/
theorem start_stream_transcription_success_keeps_body_open_witness :
    (∀ e ∈ (TranscribeStreamingClient.start_stream_transcription "us-east-1" baseEnv sampleRequest).2,
        isCloseBody e = false)
      ∧ ∀ s, (TranscribeStreamingClient.start_stream_transcription "us-east-1" baseEnv sampleRequest).1
            = .ok s →
          s.audio_stream.input_stream = (signedRequestOf baseEnv sampleRequest).body :=
  start_stream_transcription_success_keeps_body_open "us-east-1" baseEnv sampleRequest rfl

/-- C7: for every Authorization value produced by the spec-modelled SigV4
signer (an arbitrary prefix followed by `Signature=` and the lowercase hex
encoding of the 32-byte HMAC-SHA256 digest), signature extraction succeeds
and returns a seed of the fixed length 32, regardless of the prefix and the
digest contents. -/
theorem extract_signature_fixed_length_on_sigv4
    (pfx : List Char) (digest : List Nat)
    (hlen : digest.length = 32) (hbytes : ∀ b ∈ digest, b < 256) :
    extractSignature (sigV4AuthorizationValue pfx digest) = some digest
    ∧ (extractSignature (sigV4AuthorizationValue pfx digest)).map List.length = some 32 := by
  have h : extractSignature (sigV4AuthorizationValue pfx digest) = some digest := by
    unfold extractSignature sigV4AuthorizationValue
    rw [show (String.mk (pfx ++ signatureMarker ++ hexEncode digest)).data
        = pfx ++ signatureMarker ++ hexEncode digest from rfl]
    rw [extractSignatureChars_sigV4]
    exact unhexlify_hexEncode digest hbytes
  refine ⟨h, ?_⟩
  rw [h, Option.map_some', hlen]

/-- Witness for C7 on a concrete prefix and a concrete 32-byte digest. -/
theorem extract_signature_fixed_length_on_sigv4_witness :
    extractSignature (sigV4AuthorizationValue samplePfx (List.replicate 32 171))
        = some (List.replicate 32 171)
      ∧ (extractSignature (sigV4AuthorizationValue samplePfx (List.replicate 32 171))).map
          List.length = some 32 :=
  extract_signature_fixed_length_on_sigv4 samplePfx (List.replicate 32 171)
    (by decide) (by decide)

/-- C8: signature extraction is total in the absence of the marker: an
absent Authorization header yields the empty seed, and a header value that
contains no `Signature=` occurrence is hex-decoded in its entirety. -/
theorem extract_signature_without_marker
    (sr : HttpRequest) (auth : String) :
    (sr.headers.pairs.find? (fun p => p.1 == "Authorization") = none →
      TranscribeStreamingClient._extract_signature sr = some [])
    ∧ (containsSub signatureMarker auth.data = false →
      extractSignature auth = unhexlify auth.data) := by
  constructor
  · intro hnone
    have hget : sr.headers.get "Authorization" "" = "" := by
      unfold Headers.get
      rw [hnone]
    unfold TranscribeStreamingClient._extract_signature
    rw [hget]
    rfl
  · intro hno
    unfold extractSignature extractSignatureChars splitL
    rw [splitLAux_of_not_contains _ _ _ hno, List.getLastD_cons]
    rfl

def noAuthRequest : HttpRequest := { sampleSignedRequest with headers := { pairs := [] } }

/-- Witness for C8: a request lacking the Authorization header yields the
empty seed, and a header that is a bare hex string decodes whole. -/
theorem extract_signature_without_marker_witness :
    TranscribeStreamingClient._extract_signature noAuthRequest = some []
      ∧ extractSignature "deadbeef" = unhexlify "deadbeef".data :=
  ⟨(extract_signature_without_marker noAuthRequest "deadbeef").1 rfl,
   (extract_signature_without_marker noAuthRequest "deadbeef").2 (by decide)⟩

/-- C9: a status-200 handshake can still fail session start: whenever the
characters after the last `Signature=` of the Authorization value are not a
valid even-length hexadecimal string, the extraction error propagates and
session start returns the decoding error, even on the success status path. -/
theorem start_stream_transcription_error_reachable_on_status_200
    (region : String) (env : Env) (req : StartStreamTranscriptionRequest)
    (hval : validateSessionRequest req = .ok ())
    (hstatus : env.status_code = 200)
    (hbad : unhexlify (extractSignatureChars
        (((signedRequestOf env req).headers.get "Authorization" "").data)) = none) :
    (TranscribeStreamingClient.start_stream_transcription region env req).1
      = .error .binasciiError := by
  have hca : TranscribeStreamingClient._create_audio_stream (signedRequestOf env req)
      = none := by
    have hext : TranscribeStreamingClient._extract_signature (signedRequestOf env req)
        = none := by
      unfold TranscribeStreamingClient._extract_signature extractSignature
      exact hbad
    unfold TranscribeStreamingClient._create_audio_stream
    rw [hext]
  simp only [TranscribeStreamingClient.start_stream_transcription, hval, hstatus]
  rw [if_neg (by omega)]
  rw [if_neg (by simp)]
  simp only [signedRequestOf] at hca
  rw [hca]

def envC9 : Env :=
  { baseEnv with sign := fun r _ =>
      { r with headers := { pairs := [("Authorization", "Signature=zzzz")] } } }

/-- Witness for C9: with status 200 and an Authorization value ending in the
non-hex characters `zzzz`, session start fails with the decoding error. -/
theorem start_stream_transcription_error_reachable_on_status_200_witness :
    (TranscribeStreamingClient.start_stream_transcription "us-east-1" envC9 sampleRequest).1
      = .error .binasciiError :=
  start_stream_transcription_error_reachable_on_status_200
    "us-east-1" envC9 sampleRequest rfl rfl (by decide)

/-- C10: the medical client's `start_stream_transcription` is the same
pipeline as the standard client's: whenever construction succeeds on both
sides and the serialized request coincides, the two runs produce identical
outcomes and identical effect traces against the same environment. -/
theorem medical_start_stream_transcription_equals_standard
    (region : String) (env : Env)
    (reqS : StartStreamTranscriptionRequest) (reqM : StartMedicalStreamTranscriptionRequest)
    (hvalS : validateSessionRequest reqS = .ok ())
    (hvalM : validateMedicalSessionRequest reqM = .ok ())
    (hser : env.serializeStd env.endpoint reqS = env.serializeMed env.endpoint reqM) :
    TranscribeMedicalStreamingClient.start_stream_transcription region env reqM
      = TranscribeStreamingClient.start_stream_transcription region env reqS := by
  simp only [TranscribeMedicalStreamingClient.start_stream_transcription,
    TranscribeStreamingClient.start_stream_transcription, hvalS, hvalM, ← hser]

/-- Witness for C10 with concrete standard and medical requests whose
serialized forms coincide in the sample environment. -/
theorem medical_start_stream_transcription_equals_standard_witness :
    TranscribeMedicalStreamingClient.start_stream_transcription
        "us-east-1" baseEnv sampleMedicalRequest
      = TranscribeStreamingClient.start_stream_transcription
        "us-east-1" baseEnv sampleRequest :=
  medical_start_stream_transcription_equals_standard
    "us-east-1" baseEnv sampleRequest sampleMedicalRequest rfl rfl rfl
